import Mathlib

/-!
Verification of the JapaneseLearner lexical-resolution engine.

Text is modelled as the sequence of Unicode code points of a Python
string (`List Nat`); `ord` on a character is then the element itself.
The definitions below are shallow embeddings of the fallback-term
generator, the script predicates and the dictionary-probing resolver
given in `JAPALEARN_IMPROVEMENTS_CHECKLIST.md`.  The morphological
analyzer (sudachi) and the romaji-to-kana converter (pykakasi) are
external collaborators and appear as explicit parameters; Python
exceptions raised by a dictionary source are modelled with `Except`.
-/

/-- One morphological token produced by the analyzer
(`tokens[0].dictionary_form()` is the only field the source reads). -/
structure Token where
  surface : List Nat
  dictionary_form : List Nat
deriving DecidableEq

/-- The external collaborators held by `JapaneseFallbackGenerator` in
their non-raising modes: `sudachi.tokenize` (a word to its token list)
and `kakasi.convert` (the pykakasi conversion used by `to_hiragana`).
The analyzer's raising failure mode is modelled separately by
`FallibleAnalyzer` below, with the matching `Except`-valued chain. -/
structure Analyzer where
  tokenize : List Nat → List Token
  kakasiConvert : List Nat → List Nat

/-- A resolved lookup result, `WordInfo(word=..., definition=...)` in the
source: just the word and a definition string, nothing else. -/
structure WordInfo where
  word : List Nat
  meaning : String
deriving DecidableEq

/-- A pluggable dictionary source: `search(term)` returns a list of
entries, or raises (modelled as `Except.error ()`). -/
def DictSource : Type := List Nat → Except Unit (List WordInfo)

/-- `get_root_form`: first token's dictionary form, the word itself when
the analyzer yields no tokens. -/
def get_root_form (A : Analyzer) (word : List Nat) : List Nat :=
  match A.tokenize word with
  | [] => word
  | t :: _ => t.dictionary_form

/-- `to_hiragana`: delegates to the kakasi converter. -/
def to_hiragana (A : Analyzer) (text : List Nat) : List Nat :=
  A.kakasiConvert text

/-- Per-code-point hiragana-to-katakana shift.  Modelled from the spec:
the helper `hiragana_to_katakana` called by `to_katakana` is not in the
repository sources; the spec fixes hiragana-to-katakana conversion as an
exact, reversible code-point shift (hiragana block U+3041-U+3096 maps
onto katakana U+30A1-U+30F6 by adding 0x60). -/
def kata_of_point (c : Nat) : Nat :=
  if 0x3041 ≤ c ∧ c ≤ 0x3096 then c + 0x60 else c

/-- Per-code-point katakana-to-hiragana shift.  Modelled from the spec:
the inverse shift, subtracting 0x60 on the katakana block U+30A1-U+30F6. -/
def hira_of_point (c : Nat) : Nat :=
  if 0x30a1 ≤ c ∧ c ≤ 0x30f6 then c - 0x60 else c

/-- Modelled from the spec: `hiragana_to_katakana`, the exact code-point
shift applied pointwise. -/
def hiragana_to_katakana (t : List Nat) : List Nat :=
  t.map kata_of_point

/-- Modelled from the spec: the ScriptConverter's katakana-to-hiragana
direction, the exact code-point shift applied pointwise. -/
def katakana_to_hiragana (t : List Nat) : List Nat :=
  t.map hira_of_point

/-- `to_katakana`: hiragana conversion followed by the kana shift. -/
def to_katakana (A : Analyzer) (text : List Nat) : List Nat :=
  hiragana_to_katakana (to_hiragana A text)

/-- `is_romaji`: `all(ord(c) < 128 for c in text)`. -/
def is_romaji (t : List Nat) : Bool :=
  t.all (fun c => decide (c < 128))

/-- `is_hiragana`: every character above ASCII lies in U+3041-U+309F. -/
def is_hiragana (t : List Nat) : Bool :=
  t.all (fun c => decide (c ≤ 127) || (decide (0x3041 ≤ c) && decide (c ≤ 0x309f)))

/-- `is_katakana`: every character above ASCII lies in U+30A1-U+30FF. -/
def is_katakana (t : List Nat) : Bool :=
  t.all (fun c => decide (c ≤ 127) || (decide (0x30a1 ≤ c) && decide (c ≤ 0x30ff)))

/-- A string every code point of which lies in the katakana block
U+30A1-U+30FF ("katakana-only" in the round-trip property). -/
def katakana_only (t : List Nat) : Bool :=
  t.all (fun c => decide (0x30a1 ≤ c) && decide (c ≤ 0x30ff))

/-- The fixed suffix list `["そうに", "ている", "た", "だ"]` walked by the
stripping loop, as code-point lists. -/
def suffixes : List (List Nat) :=
  [[0x305d, 0x3046, 0x306b], [0x3066, 0x3044, 0x308b], [0x305f], [0x3060]]

/-- The stripping loop: for each suffix, if `word.endswith(suffix)` and
`len(word) > len(suffix) + 1`, append `word[:-len(suffix)]`. -/
def suffix_part (word : List Nat) : List (List Nat) :=
  (suffixes.filter
    (fun s => s.isSuffixOf word && decide (s.length + 1 < word.length))).map
    (fun s => word.take (word.length - s.length))

/-- The root-form step: `if root != word: terms.append(root)`. -/
def root_part (A : Analyzer) (word : List Nat) : List (List Nat) :=
  let root := get_root_form A word
  if root = word then [] else [root]

/-- The kana-conversion step: on romaji input append the hiragana and
katakana conversions and, when they differ from their base, their root
forms (in source order); on hiragana input append the katakana sibling;
on katakana input the hiragana sibling; otherwise nothing. -/
def kana_part (A : Analyzer) (word : List Nat) : List (List Nat) :=
  if is_romaji word then
    let hiragana := to_hiragana A word
    let katakana := to_katakana A word
    let hiragana_root := get_root_form A hiragana
    let katakana_root := get_root_form A katakana
    [hiragana, katakana]
      ++ (if hiragana_root = hiragana then [] else [hiragana_root])
      ++ (if katakana_root = katakana then [] else [katakana_root])
  else if is_hiragana word then [to_katakana A word]
  else if is_katakana word then [to_hiragana A word]
  else []

/-- `get_fallback_terms`: `terms = [word]`, then the root-form step, the
kana-conversion step and the suffix-stripping loop append in order. -/
def get_fallback_terms (A : Analyzer) (word : List Nat) : List (List Nat) :=
  word :: (root_part A word ++ kana_part A word ++ suffix_part word)

/-- Inner probing loop: try each dictionary source on one term; a raised
error propagates, a non-empty result returns its first entry. -/
def probe_dicts (t : List Nat) : List DictSource → Except Unit (Option WordInfo)
  | [] => Except.ok none
  | d :: ds =>
    match d t with
    | Except.error e => Except.error e
    | Except.ok [] => probe_dicts t ds
    | Except.ok (r :: _) => Except.ok (some r)

/-- Outer probing loop: try each candidate term in rank order. -/
def probe_terms (dicts : List DictSource) : List (List Nat) → Except Unit (Option WordInfo)
  | [] => Except.ok none
  | t :: ts =>
    match probe_dicts t dicts with
    | Except.error e => Except.error e
    | Except.ok (some r) => Except.ok (some r)
    | Except.ok none => probe_terms dicts ts

/-- The bare failure value `WordInfo(word=word, definition="Not found")`
the source returns when every probe missed. -/
def bare_not_found (word : List Nat) : WordInfo :=
  { word := word, meaning := "Not found" }

/-- `get_word_info`: probe every fallback term against every source in
order; first hit wins, otherwise the bare not-found value. -/
def get_word_info (A : Analyzer) (word : List Nat) (dicts : List DictSource) :
    Except Unit WordInfo :=
  match probe_terms dicts (get_fallback_terms A word) with
  | Except.error e => Except.error e
  | Except.ok (some r) => Except.ok r
  | Except.ok none => Except.ok (bare_not_found word)

/-- たべた ("ate", hiragana) as code points. -/
def tabeta : List Nat := [0x305f, 0x3079, 0x305f]

/-- たべる ("to eat", hiragana dictionary form) as code points. -/
def taberu : List Nat := [0x305f, 0x3079, 0x308b]

/-- タベタ, the katakana shift of たべた. -/
def tabetaKata : List Nat := [0x30bf, 0x30d9, 0x30bf]

/-- たべ, the stem left after stripping the suffix た from たべた. -/
def tabe : List Nat := [0x305f, 0x3079]

/-- The ASCII string "123": digits are pure ASCII, so `is_romaji` holds,
and the kakasi conversion leaves them unchanged. -/
def word123 : List Nat := [49, 50, 51]

/-- An analyzer whose tokenizer always fails (no tokens) and whose kakasi
converter leaves text unchanged (the real converter is the identity on
text, such as digits, that has no kana conversion). -/
def failingAnalyzer : Analyzer :=
  { tokenize := fun _ => [], kakasiConvert := fun t => t }

/-- An analyzer that derives the dictionary form たべる for every word. -/
def rootAnalyzer : Analyzer :=
  { tokenize := fun _ => [{ surface := tabeta, dictionary_form := taberu }],
    kakasiConvert := fun t => t }

/-- A dictionary source that never matches anything. -/
def emptySource : DictSource := fun _ => Except.ok []

/-- A dictionary source whose search always raises. -/
def errorSource : DictSource := fun _ => Except.error ()

/-- A sample entry used by the always-matching source. -/
def sampleEntry : WordInfo := { word := taberu, meaning := "to eat" }

/-- A dictionary source that matches every term with `sampleEntry`. -/
def goodSource : DictSource := fun _ => Except.ok [sampleEntry]

/-- The entry held by the higher-priority source in the priority tests. -/
def entryA : WordInfo := { word := tabeta, meaning := "entry from source A" }

/-- The entry held by the lower-priority source in the priority tests. -/
def entryB : WordInfo := { word := tabeta, meaning := "entry from source B" }

/-- Higher-priority source containing `entryA` for every term. -/
def sourceA : DictSource := fun _ => Except.ok [entryA]

/-- Lower-priority source containing `entryB` for every term. -/
def sourceB : DictSource := fun _ => Except.ok [entryB]

/-- The collaborators with the analyzer's raising failure mode kept:
`sudachi.tokenize` may raise (modelled as `Except.error ()`), exactly as
a `DictSource` search may.  The kakasi conversion stays total (no claim
concerns it raising). -/
structure FallibleAnalyzer where
  tokenize : List Nat → Except Unit (List Token)
  kakasiConvert : List Nat → List Nat

/-- `get_root_form` over a fallible analyzer: the source calls
`self.sudachi.tokenize(word, ...)` with no try/except, so an analyzer
exception propagates; otherwise the first token's dictionary form, or
the word itself when no tokens are produced. -/
def get_root_form_exc (A : FallibleAnalyzer) (word : List Nat) : Except Unit (List Nat) :=
  match A.tokenize word with
  | Except.error e => Except.error e
  | Except.ok [] => Except.ok word
  | Except.ok (t :: _) => Except.ok t.dictionary_form

/-- The root-form step over a fallible analyzer: an exception from
`get_root_form` propagates out of `get_fallback_terms`. -/
def root_part_exc (A : FallibleAnalyzer) (word : List Nat) :
    Except Unit (List (List Nat)) :=
  match get_root_form_exc A word with
  | Except.error e => Except.error e
  | Except.ok root => Except.ok (if root = word then [] else [root])

/-- The kana-conversion step over a fallible analyzer: on romaji input
the two root-form calls are made in source order and an exception from
either propagates; the other branches call no analyzer. -/
def kana_part_exc (A : FallibleAnalyzer) (word : List Nat) :
    Except Unit (List (List Nat)) :=
  if is_romaji word then
    match get_root_form_exc A (A.kakasiConvert word) with
    | Except.error e => Except.error e
    | Except.ok hiragana_root =>
      match get_root_form_exc A (hiragana_to_katakana (A.kakasiConvert word)) with
      | Except.error e => Except.error e
      | Except.ok katakana_root =>
        Except.ok ([A.kakasiConvert word, hiragana_to_katakana (A.kakasiConvert word)]
          ++ (if hiragana_root = A.kakasiConvert word then [] else [hiragana_root])
          ++ (if katakana_root = hiragana_to_katakana (A.kakasiConvert word) then []
              else [katakana_root]))
  else if is_hiragana word then Except.ok [hiragana_to_katakana (A.kakasiConvert word)]
  else if is_katakana word then Except.ok [A.kakasiConvert word]
  else Except.ok []

/-- `get_fallback_terms` over a fallible analyzer: the root-form step
runs first, then the kana step; an exception from either propagates
uncaught out of the generator. -/
def get_fallback_terms_exc (A : FallibleAnalyzer) (word : List Nat) :
    Except Unit (List (List Nat)) :=
  match root_part_exc A word with
  | Except.error e => Except.error e
  | Except.ok rp =>
    match kana_part_exc A word with
    | Except.error e => Except.error e
    | Except.ok kp => Except.ok (word :: (rp ++ kp ++ suffix_part word))

/-- `get_word_info` over a fallible analyzer: fallback-term generation
runs before any probing, so an analyzer exception fails the whole
resolution before the original term is ever looked up. -/
def get_word_info_exc (A : FallibleAnalyzer) (word : List Nat)
    (dicts : List DictSource) : Except Unit WordInfo :=
  match get_fallback_terms_exc A word with
  | Except.error e => Except.error e
  | Except.ok terms =>
    match probe_terms dicts terms with
    | Except.error e => Except.error e
    | Except.ok (some r) => Except.ok r
    | Except.ok none => Except.ok (bare_not_found word)

/-- A fallible analyzer whose tokenizer raises on every input. -/
def raisingAnalyzer : FallibleAnalyzer :=
  { tokenize := fun _ => Except.error (), kakasiConvert := fun t => t }

/-- A fallible analyzer whose tokenizer fails softly on every input,
producing no tokens without raising. -/
def okFailAnalyzer : FallibleAnalyzer :=
  { tokenize := fun _ => Except.ok [], kakasiConvert := fun t => t }

/-- A non-empty suffix of `w` fixes the last element of `w`. -/
lemma suffix_getLast (s w : List Nat) (h : s.isSuffixOf w = true) (hs : s ≠ []) :
    w.getLast? = s.getLast? := by
  rw [List.isSuffixOf_iff_suffix] at h
  obtain ⟨t, rfl⟩ := h
  cases hgl : s.getLast? with
  | none => exact absurd (List.getLast?_eq_none_iff.mp hgl) hs
  | some c => simp [List.getLast?_append, hgl]

/-- The four suffixes in the stripping list end in pairwise-distinct
characters, so any predicate implying `endswith` holds for at most one
of them. -/
lemma suffix_matches_le_one (w : List Nat) (p : List Nat → Bool)
    (hp : ∀ s, p s = true → s.isSuffixOf w = true) :
    (suffixes.filter p).length ≤ 1 := by
  have key : ∀ s : List Nat, s ≠ [] → p s = true → w.getLast? = s.getLast? :=
    fun s hs hps => suffix_getLast s w (hp s hps) hs
  have contra : ∀ s1 s2 : List Nat, s1 ≠ [] → s2 ≠ [] →
      s1.getLast? ≠ s2.getLast? → p s1 = true → p s2 = true → False := by
    intro s1 s2 h1 h2 hne hp1 hp2
    exact hne ((key s1 h1 hp1).symm.trans (key s2 h2 hp2))
  cases hb1 : p [0x305d, 0x3046, 0x306b] <;>
    cases hb2 : p [0x3066, 0x3044, 0x308b] <;>
      cases hb3 : p [0x305f] <;>
        cases hb4 : p [0x3060] <;>
          first
            | exact (contra [0x305d, 0x3046, 0x306b] [0x3066, 0x3044, 0x308b]
                (by decide) (by decide) (by decide) hb1 hb2).elim
            | exact (contra [0x305d, 0x3046, 0x306b] [0x305f]
                (by decide) (by decide) (by decide) hb1 hb3).elim
            | exact (contra [0x305d, 0x3046, 0x306b] [0x3060]
                (by decide) (by decide) (by decide) hb1 hb4).elim
            | exact (contra [0x3066, 0x3044, 0x308b] [0x305f]
                (by decide) (by decide) (by decide) hb2 hb3).elim
            | exact (contra [0x3066, 0x3044, 0x308b] [0x3060]
                (by decide) (by decide) (by decide) hb2 hb4).elim
            | exact (contra [0x305f] [0x3060]
                (by decide) (by decide) (by decide) hb3 hb4).elim
            | (simp [suffixes, List.filter, hb1, hb2, hb3, hb4])

/-- The stripping loop appends at most one stem. -/
lemma suffix_part_length_le_one (w : List Nat) : (suffix_part w).length ≤ 1 := by
  unfold suffix_part
  rw [List.length_map]
  exact suffix_matches_le_one w _
    (fun s h => by
      simp only [Bool.and_eq_true] at h
      exact h.1)

/-- The root-form step appends at most one term. -/
lemma root_part_length_le_one (A : Analyzer) (w : List Nat) :
    (root_part A w).length ≤ 1 := by
  unfold root_part
  dsimp only
  split <;> simp

/-- The kana-conversion step appends at most four terms. -/
lemma kana_part_length_le_four (A : Analyzer) (w : List Nat) :
    (kana_part A w).length ≤ 4 := by
  unfold kana_part
  split_ifs <;> simp
  split_ifs <;> simp

/-- Probing a term over sources that all miss yields no hit. -/
lemma probe_dicts_all_empty (t : List Nat) (ds : List DictSource)
    (h : ∀ d ∈ ds, d t = Except.ok []) : probe_dicts t ds = Except.ok none := by
  induction ds with
  | nil => rfl
  | cons d ds ih =>
    have hd : d t = Except.ok [] := h d (List.mem_cons_self d ds)
    simp only [probe_dicts, hd]
    exact ih (fun d' hd' => h d' (List.mem_cons_of_mem d hd'))

/-- Probing any term list over sources that all miss yields no hit. -/
lemma probe_terms_all_empty (dicts : List DictSource) (ts : List (List Nat))
    (h : ∀ d ∈ dicts, ∀ u, d u = Except.ok []) :
    probe_terms dicts ts = Except.ok none := by
  induction ts with
  | nil => rfl
  | cons t ts ih =>
    simp only [probe_terms, probe_dicts_all_empty t dicts (fun d hd => h d hd t)]
    exact ih

/-- Probing over sources that never raise never raises. -/
lemma probe_dicts_no_error (t : List Nat) (ds : List DictSource)
    (h : ∀ d ∈ ds, ∀ u, ∃ rs, d u = Except.ok rs) :
    ∃ o, probe_dicts t ds = Except.ok o := by
  induction ds with
  | nil => exact ⟨none, rfl⟩
  | cons d ds ih =>
    obtain ⟨rs, hrs⟩ := h d (List.mem_cons_self d ds) t
    cases rs with
    | nil =>
      simp only [probe_dicts, hrs]
      exact ih (fun d' hd' => h d' (List.mem_cons_of_mem d hd'))
    | cons r rest => exact ⟨some r, by simp only [probe_dicts, hrs]⟩

/-- Probing any term list over sources that never raise never raises. -/
lemma probe_terms_no_error (dicts : List DictSource) (ts : List (List Nat))
    (h : ∀ d ∈ dicts, ∀ u, ∃ rs, d u = Except.ok rs) :
    ∃ o, probe_terms dicts ts = Except.ok o := by
  induction ts with
  | nil => exact ⟨none, rfl⟩
  | cons t ts ih =>
    obtain ⟨o, ho⟩ := probe_dicts_no_error t dicts h
    cases o with
    | none =>
      obtain ⟨o', ho'⟩ := ih
      exact ⟨o', by simp only [probe_terms, ho, ho']⟩
    | some r => exact ⟨some r, by simp only [probe_terms, ho]⟩

/-- Shifting to hiragana and then to katakana agrees with shifting to
katakana directly, pointwise. -/
lemma kata_hira_point (c : Nat) : kata_of_point (hira_of_point c) = kata_of_point c := by
  unfold kata_of_point hira_of_point
  split_ifs <;> omega

/-- The hiragana shift is idempotent through the katakana shift, pointwise. -/
lemma hira_kata_hira_point (c : Nat) :
    hira_of_point (kata_of_point (hira_of_point c)) = hira_of_point c := by
  unfold kata_of_point hira_of_point
  split_ifs <;> omega

/-- Claim C1 counterexample: a failed resolution returns the bare value
`WordInfo(word, "Not found")`, which carries no attempted-terms list:
two runs of the resolver on たべた whose attempted fallback-term lists
differ (three terms with a failing analyzer, four with one that finds
the root form たべる) return the identical bare not-found value, so the
outcome cannot carry the list of attempted terms. -/
theorem claim_C1_counterexample :
    get_word_info failingAnalyzer tabeta [] = Except.ok (bare_not_found tabeta)
      ∧ get_word_info rootAnalyzer tabeta [] = Except.ok (bare_not_found tabeta)
      ∧ get_fallback_terms failingAnalyzer tabeta ≠ get_fallback_terms rootAnalyzer tabeta :=
  ⟨rfl, rfl, by decide⟩

/-- Claim C1 (amended): when no dictionary source matches any candidate
term, the resolver returns the bare not-found value carrying only the
original word and a fixed definition string; the list of attempted
fallback terms is not part of the outcome. -/
theorem claim_C1_bare_not_found (A : Analyzer) (w : List Nat) (dicts : List DictSource)
    (h : ∀ d ∈ dicts, ∀ u, d u = Except.ok []) :
    get_word_info A w dicts = Except.ok (bare_not_found w) := by
  unfold get_word_info
  rw [probe_terms_all_empty dicts (get_fallback_terms A w) h]

/-- Claim C1 witness: the amended statement at a failing analyzer, the
word たべた and one always-empty source. -/
theorem claim_C1_witness :
    get_word_info failingAnalyzer tabeta [emptySource] = Except.ok (bare_not_found tabeta) :=
  claim_C1_bare_not_found failingAnalyzer tabeta [emptySource]
    (by intro d hd u; simp only [List.mem_singleton] at hd; subst hd; rfl)

/-- Claim C2 counterexample: on the pure-ASCII term "123" (for which the
kakasi conversion is the identity, as for any text without a kana
reading) the generator returns the Original term three times, not
exactly once. -/
theorem claim_C2_counterexample :
    (get_fallback_terms failingAnalyzer word123).count word123 ≠ 1 := by decide

/-- Claim C2 (amended): for every analyzer and every input term the
generator returns at most 8 candidates, and the Original term is always
the first (rank-0) candidate — but it can reappear at a later rank when
a script conversion returns the input unchanged, since the generator
does not deduplicate. -/
theorem claim_C2_cap_and_head (A : Analyzer) (w : List Nat) :
    (get_fallback_terms A w).length ≤ 8
      ∧ (get_fallback_terms A w).head? = some w := by
  constructor
  · have h1 := root_part_length_le_one A w
    have h2 := kana_part_length_le_four A w
    have h3 := suffix_part_length_le_one w
    simp only [get_fallback_terms, List.length_cons, List.length_append]
    omega
  · rfl

/-- Claim C3: sources are probed per candidate term in configured order
and the first non-empty search result is returned: whenever the
higher-priority source holds entries for the queried word (probed first,
at rank 0) and the lower-priority source holds entries too, the resolver
returns the first entry of the higher-priority source, never the lower
one's. -/
theorem claim_C3_first_match (A : Analyzer) (w : List Nat) (sA sB : DictSource)
    (rest : List DictSource) (e e2 : WordInfo) (es es2 : List WordInfo)
    (hA : sA w = Except.ok (e :: es)) (_hB : sB w = Except.ok (e2 :: es2)) :
    get_word_info A w (sA :: sB :: rest) = Except.ok e := by
  simp only [get_word_info, get_fallback_terms, probe_terms, probe_dicts, hA]

/-- Claim C3 witness: with entry-holding sources A and B configured in
that order, resolving たべた yields A's entry. -/
theorem claim_C3_witness :
    sourceA tabeta = Except.ok [entryA]
      ∧ sourceB tabeta = Except.ok [entryB]
      ∧ get_word_info failingAnalyzer tabeta [sourceA, sourceB] = Except.ok entryA :=
  ⟨rfl, rfl,
   claim_C3_first_match failingAnalyzer tabeta sourceA sourceB [] entryA entryB [] [] rfl rfl⟩

/-- Claim C4 counterexample: the candidate list for the pure-ASCII term
"123" contains the same string three times, so the generator does not
deduplicate by string equality. -/
theorem claim_C4_counterexample :
    ¬ (get_fallback_terms failingAnalyzer word123).Nodup := by decide

/-- Claim C4 (amended): deduplication is limited to the root-form steps,
each of which compares its candidate only against its own base term:
the root-form step never re-adds the original word, and suffix-stripping
stems are strictly shorter than the word, but conversion candidates are
appended unconditionally, so the list can contain duplicates. -/
theorem claim_C4_guards (A : Analyzer) (w : List Nat) :
    (root_part A w).contains w = false
      ∧ (suffix_part w).all (fun x => decide (x.length < w.length)) = true := by
  constructor
  · unfold root_part
    dsimp only
    split
    · rfl
    · rename_i h
      simp only [List.contains_cons, List.contains_nil, Bool.or_false,
        beq_eq_false_iff_ne, ne_eq]
      exact fun hc => h hc.symm
  · rw [List.all_eq_true]
    intro x hx
    unfold suffix_part at hx
    rw [List.mem_map] at hx
    obtain ⟨s, hs, rfl⟩ := hx
    rw [List.mem_filter] at hs
    obtain ⟨hmem, hcond⟩ := hs
    simp only [Bool.and_eq_true, decide_eq_true_eq] at hcond
    simp only [decide_eq_true_eq, List.length_take]
    have hslen : 1 ≤ s.length := by fin_cases hmem <;> simp
    omega

/-- Claim C5: hiragana-katakana conversion is an exact reversible
code-point shift: for katakana-only strings, converting to hiragana and
then to katakana agrees with converting to katakana directly, and the
hiragana image is a fixed point of the katakana round trip.  The
converter itself is modelled from the spec (the shift helper is not in
the repository sources); the property in fact holds for arbitrary
strings, and is stated here under the katakana-only hypothesis of the
claim. -/
theorem claim_C5_roundtrip (x : List Nat) (_h : katakana_only x = true) :
    hiragana_to_katakana (katakana_to_hiragana x) = hiragana_to_katakana x
      ∧ katakana_to_hiragana (hiragana_to_katakana (katakana_to_hiragana x))
          = katakana_to_hiragana x := by
  constructor
  · simp only [hiragana_to_katakana, katakana_to_hiragana, List.map_map]
    exact List.map_congr_left (fun c _ => kata_hira_point c)
  · simp only [hiragana_to_katakana, katakana_to_hiragana, List.map_map]
    exact List.map_congr_left (fun c _ => hira_kata_hira_point c)

/-- Claim C5 witness: the round trip at the concrete katakana string
タベタ. -/
theorem claim_C5_witness :
    katakana_only tabetaKata = true
      ∧ hiragana_to_katakana (katakana_to_hiragana tabetaKata) = hiragana_to_katakana tabetaKata
      ∧ katakana_to_hiragana (hiragana_to_katakana (katakana_to_hiragana tabetaKata))
          = katakana_to_hiragana tabetaKata :=
  ⟨by decide,
   (claim_C5_roundtrip tabetaKata (by decide)).1,
   (claim_C5_roundtrip tabetaKata (by decide)).2⟩

/-- Claim C6 counterexample: the non-empty pure-ASCII string "a"
satisfies all three script predicates simultaneously, so the
classification predicates are not mutually exclusive on non-empty
input (and no empty-string `InvalidInput` check exists: the predicates
also all hold on the empty string). -/
theorem claim_C6_counterexample :
    ([97] : List Nat) ≠ []
      ∧ is_romaji [97] = true
      ∧ is_hiragana [97] = true
      ∧ is_katakana [97] = true
      ∧ is_romaji [] = true ∧ is_hiragana [] = true ∧ is_katakana [] = true := by
  decide

/-- Claim C6 (amended): the predicates are mutually exclusive only on
strings containing at least one non-ASCII character: such a string is
never romaji, and cannot be hiragana and katakana at once (the blocks
are disjoint); on pure-ASCII strings, the empty string included, all
three predicates hold vacuously, and no `classify`-with-`InvalidInput`
path exists in the code. -/
theorem claim_C6_exclusive (t : List Nat) (c : Nat) (hc : c ∈ t) (h127 : 127 < c) :
    is_romaji t = false ∧ (is_hiragana t = false ∨ is_katakana t = false) := by
  constructor
  · cases h : is_romaji t
    · rfl
    · exfalso
      rw [is_romaji, List.all_eq_true] at h
      have hcc := h c hc
      simp only [decide_eq_true_eq] at hcc
      omega
  · by_cases hh : is_hiragana t = true
    · right
      cases hk : is_katakana t
      · rfl
      · exfalso
        rw [is_hiragana, List.all_eq_true] at hh
        rw [is_katakana, List.all_eq_true] at hk
        have h1 := hh c hc
        have h2 := hk c hc
        simp only [Bool.or_eq_true, Bool.and_eq_true, decide_eq_true_eq] at h1 h2
        omega
    · exact Or.inl (Bool.eq_false_iff.mpr hh)

/-- Claim C6 witness: the amended exclusivity at the hiragana string あ. -/
theorem claim_C6_witness :
    is_romaji [0x3042] = false
      ∧ (is_hiragana [0x3042] = false ∨ is_katakana [0x3042] = false) :=
  claim_C6_exclusive [0x3042] 0x3042 (by decide) (by decide)

/-- With a softly failing tokenization (no tokens, no exception) the
root form is the word itself. -/
lemma get_root_form_exc_empty (A : FallibleAnalyzer) (u : List Nat)
    (h : A.tokenize u = Except.ok []) : get_root_form_exc A u = Except.ok u := by
  unfold get_root_form_exc
  rw [h]

/-- With a softly failing tokenization the root-form step appends
nothing. -/
lemma root_part_exc_empty (A : FallibleAnalyzer) (w : List Nat)
    (h : A.tokenize w = Except.ok []) : root_part_exc A w = Except.ok [] := by
  unfold root_part_exc
  rw [get_root_form_exc_empty A w h]
  simp

/-- With a softly failing tokenization the kana step returns without
raising. -/
lemma kana_part_exc_ok (A : FallibleAnalyzer) (w : List Nat)
    (h : ∀ u, A.tokenize u = Except.ok []) :
    ∃ kp, kana_part_exc A w = Except.ok kp := by
  unfold kana_part_exc
  split_ifs
  · rw [get_root_form_exc_empty A (A.kakasiConvert w) (h _),
      get_root_form_exc_empty A (hiragana_to_katakana (A.kakasiConvert w)) (h _)]
    exact ⟨_, rfl⟩
  · exact ⟨_, rfl⟩
  · exact ⟨_, rfl⟩
  · exact ⟨_, rfl⟩

/-- With a softly failing tokenization the generator returns a term list
headed by the original word. -/
lemma get_fallback_terms_exc_ok (A : FallibleAnalyzer) (w : List Nat)
    (h : ∀ u, A.tokenize u = Except.ok []) :
    ∃ ts, get_fallback_terms_exc A w = Except.ok ts ∧ ts.head? = some w := by
  obtain ⟨kp, hkp⟩ := kana_part_exc_ok A w h
  refine ⟨w :: (([] : List (List Nat)) ++ kp ++ suffix_part w), ?_, rfl⟩
  unfold get_fallback_terms_exc
  rw [root_part_exc_empty A w (h w), hkp]

/-- A raising tokenization on the queried word fails the whole
resolution. -/
lemma get_word_info_exc_raise (A : FallibleAnalyzer) (w : List Nat)
    (dicts : List DictSource) (h : A.tokenize w = Except.error ()) :
    get_word_info_exc A w dicts = Except.error () := by
  unfold get_word_info_exc get_fallback_terms_exc root_part_exc get_root_form_exc
  rw [h]

/-- Claim C7 counterexample: the source has no try/except around
`sudachi.tokenize`, so with an analyzer that raises, `get_root_form`
does not return the word unchanged and resolving たべた propagates the
exception to the caller — even though a configured source holds an
entry, the Original-term lookup never happens. -/
theorem claim_C7_counterexample :
    get_root_form_exc raisingAnalyzer tabeta = Except.error ()
      ∧ get_word_info_exc raisingAnalyzer tabeta [goodSource] = Except.error ()
      ∧ goodSource tabeta = Except.ok [sampleEntry] :=
  ⟨rfl, rfl, rfl⟩

/-- Claim C7 (amended): only the no-token failure mode degrades
gracefully: when the analyzer produces no tokens, `get_root_form`
returns the word unchanged and resolution over non-raising sources
still returns an ordinary outcome with the Original term as the first
candidate; but an analyzer exception is not caught anywhere — it
propagates out of the generator and the resolver as an unhandled
failure. -/
theorem claim_C7_degrades_or_raises (A : FallibleAnalyzer) (w : List Nat)
    (dicts : List DictSource)
    (hok : ∀ d ∈ dicts, ∀ u, ∃ rs, d u = Except.ok rs) :
    (A.tokenize w = Except.ok [] → get_root_form_exc A w = Except.ok w)
      ∧ ((∀ u, A.tokenize u = Except.ok []) →
          (∃ ts, get_fallback_terms_exc A w = Except.ok ts ∧ ts.head? = some w)
            ∧ (∃ r, get_word_info_exc A w dicts = Except.ok r))
      ∧ (A.tokenize w = Except.error () → get_word_info_exc A w dicts = Except.error ()) := by
  refine ⟨fun h => get_root_form_exc_empty A w h,
    fun h => ⟨get_fallback_terms_exc_ok A w h, ?_⟩,
    fun h => get_word_info_exc_raise A w dicts h⟩
  obtain ⟨ts, hts, _⟩ := get_fallback_terms_exc_ok A w h
  obtain ⟨o, ho⟩ := probe_terms_no_error dicts ts hok
  cases o with
  | none =>
    exact ⟨bare_not_found w, by unfold get_word_info_exc; rw [hts]; dsimp only; rw [ho]⟩
  | some r =>
    exact ⟨r, by unfold get_word_info_exc; rw [hts]; dsimp only; rw [ho]⟩

/-- Claim C7 witness: the amended statement at the softly failing
analyzer, the word たべた and one well-behaved source. -/
theorem claim_C7_witness :
    (okFailAnalyzer.tokenize tabeta = Except.ok [] →
        get_root_form_exc okFailAnalyzer tabeta = Except.ok tabeta)
      ∧ ((∀ u, okFailAnalyzer.tokenize u = Except.ok []) →
          (∃ ts, get_fallback_terms_exc okFailAnalyzer tabeta = Except.ok ts
              ∧ ts.head? = some tabeta)
            ∧ (∃ r, get_word_info_exc okFailAnalyzer tabeta [goodSource] = Except.ok r))
      ∧ (okFailAnalyzer.tokenize tabeta = Except.error () →
          get_word_info_exc okFailAnalyzer tabeta [goodSource] = Except.error ()) :=
  claim_C7_degrades_or_raises okFailAnalyzer tabeta [goodSource]
    (by intro d hd u
        simp only [List.mem_singleton] at hd
        subst hd
        exact ⟨[sampleEntry], rfl⟩)

/-- Claim C8: the stripping loop walks the fixed suffix list in
non-increasing length order (longest suffixes first); every appended
stem arises from a listed suffix the word ends with and has length at
least 2 (the code's guard `len(word) > len(suffix) + 1`); conversely a
matching suffix with such a stem is appended; and at most two (in fact
at most one) stems are ever appended. -/
theorem claim_C8_suffix_strip :
    List.Sorted (fun a b => b ≤ a) (suffixes.map List.length)
      ∧ ∀ w : List Nat,
          ((suffix_part w).all (fun x => suffixes.any (fun s =>
              s.isSuffixOf w && (x == w.take (w.length - s.length))
                && decide (2 ≤ x.length))) = true)
            ∧ ((suffixes.all (fun s =>
                !(s.isSuffixOf w && decide (s.length + 1 < w.length))
                  || decide (w.take (w.length - s.length) ∈ suffix_part w))) = true)
            ∧ (suffix_part w).length ≤ 2 := by
  refine ⟨by decide, fun w => ⟨?_, ?_, le_trans (suffix_part_length_le_one w) (by omega)⟩⟩
  · rw [List.all_eq_true]
    intro x hx
    unfold suffix_part at hx
    rw [List.mem_map] at hx
    obtain ⟨s, hs, rfl⟩ := hx
    rw [List.mem_filter] at hs
    obtain ⟨hmem, hcond⟩ := hs
    simp only [Bool.and_eq_true, decide_eq_true_eq] at hcond
    rw [List.any_eq_true]
    refine ⟨s, hmem, ?_⟩
    simp only [Bool.and_eq_true, decide_eq_true_eq, beq_self_eq_true, and_true, true_and]
    refine ⟨hcond.1, ?_⟩
    rw [List.length_take, Nat.min_eq_left (Nat.sub_le _ _)]
    omega
  · rw [List.all_eq_true]
    intro s hs
    by_cases hcond : (s.isSuffixOf w && decide (s.length + 1 < w.length)) = true
    · rw [hcond]
      simp only [Bool.not_true, Bool.false_or, decide_eq_true_eq]
      unfold suffix_part
      rw [List.mem_map]
      exact ⟨s, List.mem_filter.mpr ⟨hs, hcond⟩, rfl⟩
    · rw [Bool.eq_false_iff.mpr hcond]
      simp

/-- Claim C9 counterexample: with a raising source configured before a
source holding entries, resolving たべた propagates the error instead of
skipping the failed source and returning the later source's entry. -/
theorem claim_C9_counterexample :
    get_word_info failingAnalyzer tabeta [errorSource, goodSource] = Except.error ()
      ∧ goodSource tabeta = Except.ok [sampleEntry] :=
  ⟨rfl, rfl⟩

/-- Claim C9 (amended): an error raised by a dictionary source is not
treated as an empty result: it propagates as a failure of the whole
resolution, aborting probing of the remaining sources and candidate
terms (here: the first configured source raising on the rank-0
candidate fails the resolution). -/
theorem claim_C9_error_propagates (A : Analyzer) (w : List Nat) (d : DictSource)
    (ds : List DictSource) (h : d w = Except.error ()) :
    get_word_info A w (d :: ds) = Except.error () := by
  simp only [get_word_info, get_fallback_terms, probe_terms, probe_dicts, h]

/-- Claim C9 witness: the amended statement at the concrete raising
source and the word たべた. -/
theorem claim_C9_witness :
    errorSource tabeta = Except.error ()
      ∧ get_word_info failingAnalyzer tabeta [errorSource] = Except.error () :=
  ⟨rfl, claim_C9_error_propagates failingAnalyzer tabeta errorSource [] rfl⟩

/-- Claim C10: the four suffixes in the stripping list end in
pairwise-distinct final characters, so for every word at most one of
them can satisfy `endswith`, and the stripping step appends at most one
candidate. -/
theorem claim_C10_at_most_one :
    (suffixes.map List.getLast?).Nodup
      ∧ ∀ w : List Nat,
          (suffixes.filter (fun s => s.isSuffixOf w)).length ≤ 1
            ∧ (suffix_part w).length ≤ 1 :=
  ⟨by decide,
   fun w => ⟨suffix_matches_le_one w _ (fun _ h => h), suffix_part_length_le_one w⟩⟩
